import Mathlib

/-!
Verification of the go-morfeusz bindings: a shallow embedding of the Go
facade (morfeusz.go) and the C shim (morfeusz-cgo.cc) over a model of the
native Morfeusz 2 engine.  Pure data that crosses the boundary (struct
String, struct TokenInfo, struct TokenInfoArray) is embedded directly;
the native engine, which lives outside this repository, is modelled from
the specification where its behaviour decides a property.
-/

namespace Morfeusz

/-- The boundary type struct String: a pointer (modelled by whether it is
null) together with the character data it addresses.  The length field n
of the C struct is the length of the field s. -/
structure CString where
  null : Bool
  s : String
deriving DecidableEq

/-- The zero-initialised struct String: null pointer, zero length. -/
def emptyString : CString := ⟨true, ""⟩

/-- makeString from morfeusz-cgo.cc: copies the bytes into a fresh
allocation, so the pointer is never null, even for an empty string. -/
def makeString (s : String) : CString := ⟨false, s⟩

/-- noError from morfeusz-cgo.cc: the empty struct String. -/
def noError : CString := emptyString

/-- makeError from morfeusz-cgo.cc: allocates the message of an
exception. -/
def makeError (msg : String) : CString := makeString msg

/-- newError from morfeusz.go: a zero-length struct String converts to a
nil Go error, anything else to a Go error carrying the message. -/
def newError (c : CString) : Option String :=
  if c.s.length = 0 then none else some c.s

/-- The boundary type struct TokenInfo of morfeusz-cgo.h. -/
structure TokenInfo where
  orth : CString
  lemma_ : CString
  startNode : Int
  endNode : Int
  tagID : Int
  nameID : Int
  labelsID : Int
deriving DecidableEq

/-- emptyTokenInfo from morfeusz-cgo.cc: the zero-initialised record. -/
def emptyTokenInfo : TokenInfo := ⟨emptyString, emptyString, 0, 0, 0, 0, 0⟩

/-- The boundary type struct TokenInfoArray of morfeusz-cgo.h. -/
structure TokenInfoArray where
  tokens : List TokenInfo
  error : CString

/-- The four native charset values, as listed in translateCharset. -/
inductive NCharset
  | utf8
  | iso8859_2
  | cp1250
  | cp852
deriving DecidableEq

/-- The two native token-numbering values. -/
inductive NTokenNumbering
  | separate
  | continuous
deriving DecidableEq

/-- The three native case-handling values. -/
inductive NCaseHandling
  | conditionallyCaseSensitive
  | strictlyCaseSensitive
  | ignoreCase
deriving DecidableEq

/-- The three native whitespace-handling values. -/
inductive NWhitespaceHandling
  | skipWhitespaces
  | appendWhitespaces
  | keepWhitespaces
deriving DecidableEq

/-- The three native usage values. -/
inductive NUsage
  | bothAnalyseAndGenerate
  | analyseOnly
  | generateOnly
deriving DecidableEq

/-- translateCharset from morfeusz-cgo.cc: a fixed-size array indexed by
the raw ordinal coming from Go. -/
def translateCharset : List NCharset :=
  [NCharset.utf8, NCharset.iso8859_2, NCharset.cp1250, NCharset.cp852]

/-- translateTokenNumbering from morfeusz-cgo.cc. -/
def translateTokenNumbering : List NTokenNumbering :=
  [NTokenNumbering.separate, NTokenNumbering.continuous]

/-- translateCaseHandling from morfeusz-cgo.cc. -/
def translateCaseHandling : List NCaseHandling :=
  [NCaseHandling.conditionallyCaseSensitive,
   NCaseHandling.strictlyCaseSensitive,
   NCaseHandling.ignoreCase]

/-- translateWhitespaceHandling from morfeusz-cgo.cc. -/
def translateWhitespaceHandling : List NWhitespaceHandling :=
  [NWhitespaceHandling.skipWhitespaces,
   NWhitespaceHandling.appendWhitespaces,
   NWhitespaceHandling.keepWhitespaces]

/-- translateUsage from morfeusz-cgo.cc. -/
def translateUsage : List NUsage :=
  [NUsage.bothAnalyseAndGenerate, NUsage.analyseOnly, NUsage.generateOnly]

/-- C array indexing with an int subscript.  The C code performs no bounds
check; reading outside the array is undefined behaviour, modelled as
none. -/
def tableGet {α : Type} (t : List α) (i : Int) : Option α :=
  if i < 0 then none else t.get? i.toNat

/-- The state of a native Morfeusz engine instance.  The native engine is
outside this repository; its observable state, as described by the
specification, is the configuration, the loaded dictionary with its
validation data and interning tables, the search-path list, and the
generation function.  Interning tables map an id (the index) to its
canonical string, or none for a reserved id lacking one. -/
structure Engine where
  usage : NUsage
  charset : NCharset
  tokenNumbering : NTokenNumbering
  caseHandling : NCaseHandling
  whitespaceHandling : NWhitespaceHandling
  aggl : String
  praet : String
  dictName : String
  availableAggl : List String
  availablePraet : List String
  availableDicts : List String
  tags : List (Option String)
  names : List (Option String)
  labels : List (Option String)
  searchPaths : List String
  genForms : String → List TokenInfo
  genFormsWithTag : Int → String → List TokenInfo
  agglErrMsg : String → String
  praetErrMsg : String → String
  dictErrMsg : String → String
  genDisabledMsg : String

/-- Modelled from the spec: the native setAggl (morfeusz2 library, outside
src/) validates the value against the loaded dictionary's agglutination
options; on success it updates the setting, on rejection it throws a
native-formatted message and retains the prior setting unchanged. -/
def nativeSetAggl (e : Engine) (v : String) : Except String Engine :=
  if v ∈ e.availableAggl then Except.ok { e with aggl := v }
  else Except.error (e.agglErrMsg v)

/-- Modelled from the spec: the native setPraet, analogous to setAggl. -/
def nativeSetPraet (e : Engine) (v : String) : Except String Engine :=
  if v ∈ e.availablePraet then Except.ok { e with praet := v }
  else Except.error (e.praetErrMsg v)

/-- Modelled from the spec: the native setDictionary validates the name
against the loadable dictionaries; on rejection the prior dictionary is
retained and a native-formatted message is thrown. -/
def nativeSetDictionary (e : Engine) (v : String) : Except String Engine :=
  if v ∈ e.availableDicts then Except.ok { e with dictName := v }
  else Except.error (e.dictErrMsg v)

/-- setAggl from morfeusz-cgo.cc: call the native setter, convert an
exception into an allocated error message, success into noError. -/
def setAggl (e : Engine) (v : String) : CString × Engine :=
  match nativeSetAggl e v with
  | Except.ok e2 => (noError, e2)
  | Except.error msg => (makeError msg, e)

/-- setPraet from morfeusz-cgo.cc. -/
def setPraet (e : Engine) (v : String) : CString × Engine :=
  match nativeSetPraet e v with
  | Except.ok e2 => (noError, e2)
  | Except.error msg => (makeError msg, e)

/-- setDictionary from morfeusz-cgo.cc. -/
def setDictionary (e : Engine) (v : String) : CString × Engine :=
  match nativeSetDictionary e v with
  | Except.ok e2 => (noError, e2)
  | Except.error msg => (makeError msg, e)

/-- SetAggl from morfeusz.go: wrap the shim's error in a Go error. -/
def SetAggl (e : Engine) (v : String) : Option String × Engine :=
  let r := setAggl e v
  (newError r.1, r.2)

/-- SetPraet from morfeusz.go. -/
def SetPraet (e : Engine) (v : String) : Option String × Engine :=
  let r := setPraet e v
  (newError r.1, r.2)

/-- SetDictionary from morfeusz.go. -/
def SetDictionary (e : Engine) (v : String) : Option String × Engine :=
  let r := setDictionary e v
  (newError r.1, r.2)

/-- Aggl from morfeusz.go: the current agglutination setting (cgo aggl
copies getAggl into a fresh struct String which Go converts and frees). -/
def Aggl (e : Engine) : String := e.aggl

/-- Praet from morfeusz.go. -/
def Praet (e : Engine) : String := e.praet

/-- setCharset from morfeusz-cgo.cc: translateCharset[encoding] with no
bounds check, then the native setter (which the spec gives no failure
mode for a translated value).  An out-of-range ordinal is an
out-of-bounds array read: undefined behaviour, modelled as none. -/
def setCharset (e : Engine) (encoding : Int) : Option (CString × Engine) :=
  (tableGet translateCharset encoding).map
    (fun v => (noError, { e with charset := v }))

/-- setCaseHandling from morfeusz-cgo.cc: translateCaseHandling indexed by
the raw ordinal, no bounds check. -/
def setCaseHandling (e : Engine) (v : Int) : Option (CString × Engine) :=
  (tableGet translateCaseHandling v).map
    (fun w => (noError, { e with caseHandling := w }))

/-- setTokenNumbering from morfeusz-cgo.cc. -/
def setTokenNumbering (e : Engine) (v : Int) : Option (CString × Engine) :=
  (tableGet translateTokenNumbering v).map
    (fun w => (noError, { e with tokenNumbering := w }))

/-- setWhitespaceHandling from morfeusz-cgo.cc. -/
def setWhitespaceHandling (e : Engine) (v : Int) : Option (CString × Engine) :=
  (tableGet translateWhitespaceHandling v).map
    (fun w => (noError, { e with whitespaceHandling := w }))

/-- SetCharset from morfeusz.go: the facade range-checks the encoding
(the workaround comment in the source) before crossing the boundary. -/
def SetCharset (e : Engine) (encoding : Int) :
    Option (Option String × Engine) :=
  if encoding < 0 ∨ 3 < encoding then some (some ("Invalid charset"), e)
  else (setCharset e encoding).map (fun r => (newError r.1, r.2))

/-- SetCaseHandling from morfeusz.go: no facade-side range check; the raw
ordinal crosses the boundary. -/
def SetCaseHandling (e : Engine) (v : Int) :
    Option (Option String × Engine) :=
  (setCaseHandling e v).map (fun r => (newError r.1, r.2))

/-- SetTokenNumbering from morfeusz.go: no facade-side range check. -/
def SetTokenNumbering (e : Engine) (v : Int) :
    Option (Option String × Engine) :=
  (setTokenNumbering e v).map (fun r => (newError r.1, r.2))

/-- SetWhitespaceHandling from morfeusz.go: no facade-side range check. -/
def SetWhitespaceHandling (e : Engine) (v : Int) :
    Option (Option String × Engine) :=
  (setWhitespaceHandling e v).map (fun r => (newError r.1, r.2))

/-- The result cursor of one analysis call.  Modelled from the spec: the
native ResultsIterator (outside src/) streams a fixed token sequence and
keeps a position. -/
structure Result where
  tokens : List TokenInfo
  pos : Nat
deriving DecidableEq

/-- Modelled from the spec: the native hasNext is side-effect-free and
repeatable; it reports whether tokens remain and returns the cursor state
it leaves behind. -/
def nativeHasNext (r : Result) : Bool × Result :=
  (decide (r.pos < r.tokens.length), r)

/-- Modelled from the spec: the native next either yields the token at
the current position and advances by one, or throws when the stream is
exhausted. -/
def nativeNext (r : Result) : Except Unit (TokenInfo × Result) :=
  match r.tokens.get? r.pos with
  | some t => Except.ok (t, ⟨r.tokens, r.pos + 1⟩)
  | none => Except.error ()

/-- hasNext from morfeusz-cgo.cc: delegates to the native iterator. -/
def hasNext (r : Result) : Bool × Result := nativeHasNext r

/-- next from morfeusz-cgo.cc: the native token marshalled through
makeTokenInfo, or, when the native call throws, the zero-initialised
emptyTokenInfo whose orth has zero length. -/
def next (r : Result) : TokenInfo × Result :=
  match nativeNext r with
  | Except.ok p => p
  | Except.error _ => (emptyTokenInfo, r)

/-- Next from morfeusz.go: hasNext(r.res) != 0. -/
def Result.Next (r : Result) : Bool × Result := hasNext r

/-- TokenInfo from morfeusz.go: pulls the next record through the shim
and surfaces the zero-length-orth sentinel as nil. -/
def Result.TokenInfo (r : Result) : Option TokenInfo × Result :=
  let p := next r
  if p.1.orth.s.length = 0 then (none, p.2) else (some p.1, p.2)

/-- Modelled from the spec: the native generate (outside src/) fills the
vector with all inflected forms of the lemma, or throws against a
generation-disabled (analyse-only) engine. -/
def nativeGenerate (e : Engine) (lemma_ : String) :
    Except String (List TokenInfo) :=
  match e.usage with
  | NUsage.analyseOnly => Except.error e.genDisabledMsg
  | _ => Except.ok (e.genForms lemma_)

/-- Modelled from the spec: the tag-restricted native generate; an empty
vector means the tag restriction matched nothing. -/
def nativeGenerateWithTag (e : Engine) (tagId : Int) (lemma_ : String) :
    Except String (List TokenInfo) :=
  match e.usage with
  | NUsage.analyseOnly => Except.error e.genDisabledMsg
  | _ => Except.ok (e.genFormsWithTag tagId lemma_)

/-- generate from morfeusz-cgo.cc: a successful vector becomes an array
with noError; an exception becomes an empty array carrying the allocated
message (makeTokenInfoArray of the exception). -/
def generate (e : Engine) (lemma_ : String) : TokenInfoArray :=
  match nativeGenerate e lemma_ with
  | Except.ok vec => ⟨vec, noError⟩
  | Except.error msg => ⟨[], makeError msg⟩

/-- generateWithTagID from morfeusz-cgo.cc. -/
def generateWithTagID (e : Engine) (tagId : Int) (lemma_ : String) :
    TokenInfoArray :=
  match nativeGenerateWithTag e tagId lemma_ with
  | Except.ok vec => ⟨vec, noError⟩
  | Except.error msg => ⟨[], makeError msg⟩

/-- fromTokenInfoArray from morfeusz.go: a non-null error pointer selects
the error channel (nil slice); otherwise the tokens are copied out and
the error is nil. -/
def fromTokenInfoArray (arr : TokenInfoArray) :
    Option (List TokenInfo) × Option String :=
  if arr.error.null = false then (none, newError arr.error)
  else (some arr.tokens, none)

/-- Generate from morfeusz.go. -/
def Generate (e : Engine) (lemma_ : String) :
    Option (List TokenInfo) × Option String :=
  fromTokenInfoArray (generate e lemma_)

/-- GenerateWithTagID from morfeusz.go. -/
def GenerateWithTagID (e : Engine) (tagId : Int) (lemma_ : String) :
    Option (List TokenInfo) × Option String :=
  fromTokenInfoArray (generateWithTagID e tagId lemma_)

/-- Modelled from the spec: resolve-by-id in a native interning table
(IdResolver, outside src/): throws on an out-of-range id and on a
reserved id lacking a canonical string. -/
def resolveById (table : List (Option String)) (i : Int) :
    Except Unit String :=
  if i < 0 then Except.error ()
  else
    match table.get? i.toNat with
    | some (some s) => Except.ok s
    | some none => Except.error ()
    | none => Except.error ()

/-- First index of the canonical string s in an interning table. -/
def findString (table : List (Option String)) (s : String) : Option Nat :=
  match table with
  | [] => none
  | x :: rest =>
      if x = some s then some 0 else (findString rest s).map (fun k => k + 1)

/-- Modelled from the spec: resolve-by-string in a native interning
table: throws when the string is unknown. -/
def resolveByString (table : List (Option String)) (s : String) :
    Except Unit Int :=
  match findString table s with
  | some k => Except.ok (k : Int)
  | none => Except.error ()

/-- tag from morfeusz-cgo.cc: the resolved string, or the empty string
when the native resolver throws. -/
def tag (e : Engine) (tagId : Int) : CString :=
  match resolveById e.tags tagId with
  | Except.ok s => makeString s
  | Except.error _ => emptyString

/-- tagId from morfeusz-cgo.cc: the resolved id, or invalidId (-1) when
the native resolver throws. -/
def tagId (e : Engine) (t : String) : Int :=
  match resolveByString e.tags t with
  | Except.ok i => i
  | Except.error _ => -1

/-- name from morfeusz-cgo.cc. -/
def name (e : Engine) (nameId : Int) : CString :=
  match resolveById e.names nameId with
  | Except.ok s => makeString s
  | Except.error _ => emptyString

/-- nameId from morfeusz-cgo.cc. -/
def nameId (e : Engine) (n : String) : Int :=
  match resolveByString e.names n with
  | Except.ok i => i
  | Except.error _ => -1

/-- labelsAsString from morfeusz-cgo.cc. -/
def labelsAsString (e : Engine) (labelsId : Int) : CString :=
  match resolveById e.labels labelsId with
  | Except.ok s => makeString s
  | Except.error _ => emptyString

/-- labelsId from morfeusz-cgo.cc. -/
def labelsId (e : Engine) (l : String) : Int :=
  match resolveByString e.labels l with
  | Except.ok i => i
  | Except.error _ => -1

/-- Tag from morfeusz.go: the shim's struct String converted to a Go
string and freed. -/
def Tag (e : Engine) (i : Int) : String := (tag e i).s

/-- TagID from morfeusz.go. -/
def TagID (e : Engine) (t : String) : Int := tagId e t

/-- Name from morfeusz.go. -/
def Name (e : Engine) (i : Int) : String := (name e i).s

/-- NameID from morfeusz.go. -/
def NameID (e : Engine) (n : String) : Int := nameId e n

/-- LabelsAsString from morfeusz.go. -/
def LabelsAsString (e : Engine) (i : Int) : String := (labelsAsString e i).s

/-- LabelsID from morfeusz.go. -/
def LabelsID (e : Engine) (l : String) : Int := labelsId e l

/-- TagsCount from morfeusz.go via tagsCount in morfeusz-cgo.cc. -/
def TagsCount (e : Engine) : Int := (e.tags.length : Int)

/-- prependToDictionarySearchPaths from morfeusz-cgo.cc:
push_front on the engine's path list. -/
def prependToDictionarySearchPaths (e : Engine) (p : String) : Engine :=
  { e with searchPaths := p :: e.searchPaths }

/-- appendToDictionarySearchPaths from morfeusz-cgo.cc: push_back. -/
def appendToDictionarySearchPaths (e : Engine) (p : String) : Engine :=
  { e with searchPaths := e.searchPaths ++ [p] }

/-- removeFromDictionarySearchPaths from morfeusz-cgo.cc: the engine
after std::list::remove (which drops every element equal to the value)
paired with previousLength - newLength. -/
def removeFromDictionarySearchPaths (e : Engine) (p : String) :
    Engine × Nat :=
  let dsp := e.searchPaths.filter (fun x => decide (x ≠ p))
  ({ e with searchPaths := dsp }, e.searchPaths.length - dsp.length)

/-- clearDictionarySearchPaths from morfeusz-cgo.cc. -/
def clearDictionarySearchPaths (e : Engine) : Engine :=
  { e with searchPaths := [] }

/-- The Go Config struct, with the enum fields as raw ordinals. -/
structure Config where
  dictName : String
  aggl : String
  praet : String
  charset : Int
  tokenNumbering : Int
  caseHandling : Int
  whitespaceHandling : Int
  usage : Int

/-- The zero Config, as built by New(nil). -/
def defaultConfig : Config := ⟨"", "", "", 0, 0, 0, 0, 0⟩

/-- The environment New runs in: which dictionary names load, and the
engine state a successful load produces. -/
structure World where
  loadDict : String → Option Engine

/-- createInstance from morfeusz-cgo.cc: translateUsage[usage] (no bounds
check: an out-of-range ordinal is undefined behaviour, the outer none),
then the native factory, whose exception is caught and surfaced as a
null handle (the inner none). -/
def createInstance (w : World) (dictName : String) (usage : Int) :
    Option (Option Engine) :=
  (tableGet translateUsage usage).map
    (fun u => (w.loadDict dictName).map (fun e => { e with usage := u }))

/-- The SetWhitespaceHandling step of New: on error, New returns nil and
the error. -/
def configureWS (m : Engine) (c : Config) : Option (Except String Engine) :=
  match SetWhitespaceHandling m c.whitespaceHandling with
  | none => none
  | some (some err, _) => some (Except.error err)
  | some (none, m2) => some (Except.ok m2)

/-- The SetTokenNumbering step of New. -/
def configureTN (m : Engine) (c : Config) : Option (Except String Engine) :=
  match SetTokenNumbering m c.tokenNumbering with
  | none => none
  | some (some err, _) => some (Except.error err)
  | some (none, m2) => configureWS m2 c

/-- The SetCaseHandling step of New. -/
def configureCH (m : Engine) (c : Config) : Option (Except String Engine) :=
  match SetCaseHandling m c.caseHandling with
  | none => none
  | some (some err, _) => some (Except.error err)
  | some (none, m2) => configureTN m2 c

/-- The SetCharset step of New. -/
def configureCS (m : Engine) (c : Config) : Option (Except String Engine) :=
  match SetCharset m c.charset with
  | none => none
  | some (some err, _) => some (Except.error err)
  | some (none, m2) => configureCH m2 c

/-- The SetPraet step of New, run only when Config.Praet is non-empty. -/
def configurePraet (m : Engine) (c : Config) :
    Option (Except String Engine) :=
  match (if c.praet = "" then (none, m) else SetPraet m c.praet) with
  | (some err, _) => some (Except.error err)
  | (none, m2) => configureCS m2 c

/-- The SetAggl step of New, run only when Config.Aggl is non-empty. -/
def configureAggl (m : Engine) (c : Config) :
    Option (Except String Engine) :=
  match (if c.aggl = "" then (none, m) else SetAggl m c.aggl) with
  | (some err, _) => some (Except.error err)
  | (none, m2) => configurePraet m2 c

/-- New from morfeusz.go: nil config means the zero config; the usage
range check (the workaround comment in the source) runs before the
boundary is crossed; a null native handle becomes a load-failure error;
then the configuration steps run in source order, each aborting New with
its error.  The outer none is the undefined behaviour a raw out-of-range
enum ordinal causes in the shim's translation tables. -/
def New (w : World) (oc : Option Config) : Option (Except String Engine) :=
  let c := oc.getD defaultConfig
  if c.usage < 0 ∨ 2 < c.usage then
    some (Except.error ("Invalid usage option"))
  else
    match createInstance w c.dictName c.usage with
    | none => none
    | some none =>
        some (Except.error
          ("Failed to load dictionary \"" ++ c.dictName ++ "\""))
    | some (some m) => configureAggl m c

/-- Every configuration step of New succeeds on engine m: the non-empty
Aggl and Praet values are available in the loaded dictionary, and every
enum ordinal is within its translation table. -/
def StepsOk (m : Engine) (c : Config) : Prop :=
  (c.aggl = "" ∨ c.aggl ∈ m.availableAggl) ∧
  (c.praet = "" ∨ c.praet ∈ m.availablePraet) ∧
  (0 ≤ c.charset ∧ c.charset ≤ 3) ∧
  (0 ≤ c.caseHandling ∧ c.caseHandling ≤ 2) ∧
  (0 ≤ c.tokenNumbering ∧ c.tokenNumbering ≤ 1) ∧
  (0 ≤ c.whitespaceHandling ∧ c.whitespaceHandling ≤ 2)

/-- An interning table is injective on its canonical strings: two
entries are distinct unless reserved. -/
def TableInjective (table : List (Option String)) : Prop :=
  table.Pairwise (fun a b => a ≠ b ∨ a = none)

/-- A concrete engine state used to evaluate the boundary operations. -/
def baseEngine : Engine where
  usage := NUsage.bothAnalyseAndGenerate
  charset := NCharset.utf8
  tokenNumbering := NTokenNumbering.separate
  caseHandling := NCaseHandling.conditionallyCaseSensitive
  whitespaceHandling := NWhitespaceHandling.skipWhitespaces
  aggl := "strict"
  praet := "split"
  dictName := "sgjp"
  availableAggl := ["strict", "permissive"]
  availablePraet := ["split", "composite"]
  availableDicts := ["sgjp"]
  tags := [some ("ign"), some ("sp"), some ("adj")]
  names := [some ("imię"), some ("nazwa_pospolita")]
  labels := [some ("bot."), some ("pot.")]
  searchPaths := ["first_path", "first_path", "last_path"]
  genForms := fun _ => []
  genFormsWithTag := fun _ _ => []
  agglErrMsg := fun _ => "Invalid aggl option"
  praetErrMsg := fun _ => "Invalid praet option"
  dictErrMsg := fun _ => "Dictionary not found"
  genDisabledMsg := "Generation disabled"

/-- The concrete engine with generation disabled. -/
def analyseOnlyEngine : Engine := { baseEngine with usage := NUsage.analyseOnly }

/-- An exhausted concrete result cursor. -/
def emptyResult : Result := ⟨[], 0⟩

/-- A world in which every dictionary name loads to the base engine. -/
def allLoadWorld : World := ⟨fun _ => some baseEngine⟩

/-- A config with an out-of-range charset ordinal and everything else at
its default. -/
def charsetOutConfig : Config := { defaultConfig with charset := 4 }

/-- A config with an out-of-range case-handling ordinal. -/
def caseOutConfig : Config := { defaultConfig with caseHandling := 3 }

/-- A config selecting an agglutination value the dictionary rejects. -/
def badAgglConfig : Config := { defaultConfig with aggl := "xyz" }

theorem newError_noError : newError noError = none := rfl

theorem newError_makeError (msg : String) (h : msg ≠ "") :
    newError (makeError msg) = some msg := by
  unfold newError makeError makeString
  rw [if_neg]
  intro hc
  apply h
  cases msg with
  | mk data =>
    simp [String.length] at hc
    simp [hc]

theorem tableGet_neg {α : Type} (t : List α) (i : Int) (h : i < 0) :
    tableGet t i = none := by simp [tableGet, h]

theorem tableGet_ge {α : Type} (t : List α) (i : Int)
    (h : (t.length : Int) ≤ i) : tableGet t i = none := by
  unfold tableGet
  rw [if_neg (by omega)]
  rw [List.get?_eq_none]
  omega

theorem SetAggl_mem (e : Engine) (v : String) (h : v ∈ e.availableAggl) :
    SetAggl e v = (none, { e with aggl := v }) := by
  simp [SetAggl, setAggl, nativeSetAggl, h, newError_noError]

theorem SetAggl_not_mem (e : Engine) (v : String)
    (h : v ∉ e.availableAggl) (hmsg : e.agglErrMsg v ≠ "") :
    SetAggl e v = (some (e.agglErrMsg v), e) := by
  simp [SetAggl, setAggl, nativeSetAggl, h, newError_makeError _ hmsg]

theorem SetPraet_mem (e : Engine) (v : String) (h : v ∈ e.availablePraet) :
    SetPraet e v = (none, { e with praet := v }) := by
  simp [SetPraet, setPraet, nativeSetPraet, h, newError_noError]

theorem SetPraet_not_mem (e : Engine) (v : String)
    (h : v ∉ e.availablePraet) (hmsg : e.praetErrMsg v ≠ "") :
    SetPraet e v = (some (e.praetErrMsg v), e) := by
  simp [SetPraet, setPraet, nativeSetPraet, h, newError_makeError _ hmsg]

theorem SetDictionary_mem (e : Engine) (v : String)
    (h : v ∈ e.availableDicts) :
    SetDictionary e v = (none, { e with dictName := v }) := by
  simp [SetDictionary, setDictionary, nativeSetDictionary, h,
    newError_noError]

theorem SetDictionary_not_mem (e : Engine) (v : String)
    (h : v ∉ e.availableDicts) (hmsg : e.dictErrMsg v ≠ "") :
    SetDictionary e v = (some (e.dictErrMsg v), e) := by
  simp [SetDictionary, setDictionary, nativeSetDictionary, h,
    newError_makeError _ hmsg]

theorem SetCharset_out (e : Engine) (i : Int) (h : i < 0 ∨ 3 < i) :
    SetCharset e i = some (some ("Invalid charset"), e) := by
  simp [SetCharset, h]

theorem SetCharset_in (e : Engine) (i : Int) (h0 : 0 ≤ i) (h3 : i ≤ 3) :
    ∃ v, SetCharset e i = some (none, { e with charset := v }) := by
  have hi : i = 0 ∨ i = 1 ∨ i = 2 ∨ i = 3 := by omega
  rcases hi with h | h | h | h <;> subst h <;> exact ⟨_, rfl⟩

theorem SetCaseHandling_out (e : Engine) (i : Int) (h : i < 0 ∨ 2 < i) :
    SetCaseHandling e i = none := by
  rcases h with h | h
  · simp [SetCaseHandling, setCaseHandling, tableGet_neg _ _ h]
  · have := tableGet_ge translateCaseHandling i (by simpa [translateCaseHandling] using by omega)
    simp [SetCaseHandling, setCaseHandling, this]

theorem SetCaseHandling_in (e : Engine) (i : Int) (h0 : 0 ≤ i)
    (h2 : i ≤ 2) :
    ∃ v, SetCaseHandling e i = some (none, { e with caseHandling := v }) := by
  have hi : i = 0 ∨ i = 1 ∨ i = 2 := by omega
  rcases hi with h | h | h <;> subst h <;> exact ⟨_, rfl⟩

theorem SetTokenNumbering_out (e : Engine) (i : Int) (h : i < 0 ∨ 1 < i) :
    SetTokenNumbering e i = none := by
  rcases h with h | h
  · simp [SetTokenNumbering, setTokenNumbering, tableGet_neg _ _ h]
  · have := tableGet_ge translateTokenNumbering i (by simpa [translateTokenNumbering] using by omega)
    simp [SetTokenNumbering, setTokenNumbering, this]

theorem SetTokenNumbering_in (e : Engine) (i : Int) (h0 : 0 ≤ i)
    (h1 : i ≤ 1) :
    ∃ v, SetTokenNumbering e i =
      some (none, { e with tokenNumbering := v }) := by
  have hi : i = 0 ∨ i = 1 := by omega
  rcases hi with h | h <;> subst h <;> exact ⟨_, rfl⟩

theorem SetWhitespaceHandling_out (e : Engine) (i : Int)
    (h : i < 0 ∨ 2 < i) : SetWhitespaceHandling e i = none := by
  rcases h with h | h
  · simp [SetWhitespaceHandling, setWhitespaceHandling, tableGet_neg _ _ h]
  · have := tableGet_ge translateWhitespaceHandling i (by simpa [translateWhitespaceHandling] using by omega)
    simp [SetWhitespaceHandling, setWhitespaceHandling, this]

theorem SetWhitespaceHandling_in (e : Engine) (i : Int) (h0 : 0 ≤ i)
    (h2 : i ≤ 2) :
    ∃ v, SetWhitespaceHandling e i =
      some (none, { e with whitespaceHandling := v }) := by
  have hi : i = 0 ∨ i = 1 ∨ i = 2 := by omega
  rcases hi with h | h | h <;> subst h <;> exact ⟨_, rfl⟩

theorem tableGet_usage_in (i : Int) (h0 : 0 ≤ i) (h2 : i ≤ 2) :
    ∃ u, tableGet translateUsage i = some u := by
  have hi : i = 0 ∨ i = 1 ∨ i = 2 := by omega
  rcases hi with h | h | h <;> subst h <;> exact ⟨_, rfl⟩

theorem configureWS_out (m : Engine) (c : Config)
    (h : c.whitespaceHandling < 0 ∨ 2 < c.whitespaceHandling) :
    configureWS m c = none := by
  simp [configureWS, SetWhitespaceHandling_out _ _ h]

theorem configureWS_ok (m : Engine) (c : Config)
    (h0 : 0 ≤ c.whitespaceHandling) (h2 : c.whitespaceHandling ≤ 2) :
    ∃ m2, configureWS m c = some (Except.ok m2) := by
  obtain ⟨v, hv⟩ := SetWhitespaceHandling_in m c.whitespaceHandling h0 h2
  exact ⟨{ m with whitespaceHandling := v }, by simp [configureWS, hv]⟩

theorem configureWS_cond (m : Engine) (c : Config) (m2 : Engine)
    (hok : configureWS m c = some (Except.ok m2)) :
    0 ≤ c.whitespaceHandling ∧ c.whitespaceHandling ≤ 2 := by
  by_cases h : 0 ≤ c.whitespaceHandling ∧ c.whitespaceHandling ≤ 2
  · exact h
  · rw [configureWS_out m c (by omega)] at hok
    exact Option.noConfusion hok

theorem configureTN_out (m : Engine) (c : Config)
    (h : c.tokenNumbering < 0 ∨ 1 < c.tokenNumbering) :
    configureTN m c = none := by
  simp [configureTN, SetTokenNumbering_out _ _ h]

theorem configureTN_step (m : Engine) (c : Config)
    (h0 : 0 ≤ c.tokenNumbering) (h1 : c.tokenNumbering ≤ 1) :
    ∃ v, configureTN m c = configureWS { m with tokenNumbering := v } c := by
  obtain ⟨v, hv⟩ := SetTokenNumbering_in m c.tokenNumbering h0 h1
  exact ⟨v, by simp [configureTN, hv]⟩

theorem configureTN_ok (m : Engine) (c : Config)
    (ht0 : 0 ≤ c.tokenNumbering) (ht1 : c.tokenNumbering ≤ 1)
    (hw0 : 0 ≤ c.whitespaceHandling) (hw2 : c.whitespaceHandling ≤ 2) :
    ∃ m2, configureTN m c = some (Except.ok m2) := by
  obtain ⟨v, hv⟩ := configureTN_step m c ht0 ht1
  rw [hv]
  exact configureWS_ok _ c hw0 hw2

theorem configureTN_cond (m : Engine) (c : Config) (m2 : Engine)
    (hok : configureTN m c = some (Except.ok m2)) :
    (0 ≤ c.tokenNumbering ∧ c.tokenNumbering ≤ 1) ∧
      (0 ≤ c.whitespaceHandling ∧ c.whitespaceHandling ≤ 2) := by
  by_cases h : 0 ≤ c.tokenNumbering ∧ c.tokenNumbering ≤ 1
  · obtain ⟨v, hv⟩ := configureTN_step m c h.1 h.2
    rw [hv] at hok
    exact ⟨h, configureWS_cond _ c m2 hok⟩
  · rw [configureTN_out m c (by omega)] at hok
    exact Option.noConfusion hok

theorem configureCH_out (m : Engine) (c : Config)
    (h : c.caseHandling < 0 ∨ 2 < c.caseHandling) :
    configureCH m c = none := by
  simp [configureCH, SetCaseHandling_out _ _ h]

theorem configureCH_step (m : Engine) (c : Config)
    (h0 : 0 ≤ c.caseHandling) (h2 : c.caseHandling ≤ 2) :
    ∃ v, configureCH m c = configureTN { m with caseHandling := v } c := by
  obtain ⟨v, hv⟩ := SetCaseHandling_in m c.caseHandling h0 h2
  exact ⟨v, by simp [configureCH, hv]⟩

theorem configureCH_ok (m : Engine) (c : Config)
    (hc0 : 0 ≤ c.caseHandling) (hc2 : c.caseHandling ≤ 2)
    (ht0 : 0 ≤ c.tokenNumbering) (ht1 : c.tokenNumbering ≤ 1)
    (hw0 : 0 ≤ c.whitespaceHandling) (hw2 : c.whitespaceHandling ≤ 2) :
    ∃ m2, configureCH m c = some (Except.ok m2) := by
  obtain ⟨v, hv⟩ := configureCH_step m c hc0 hc2
  rw [hv]
  exact configureTN_ok _ c ht0 ht1 hw0 hw2

theorem configureCH_cond (m : Engine) (c : Config) (m2 : Engine)
    (hok : configureCH m c = some (Except.ok m2)) :
    (0 ≤ c.caseHandling ∧ c.caseHandling ≤ 2) ∧
      (0 ≤ c.tokenNumbering ∧ c.tokenNumbering ≤ 1) ∧
      (0 ≤ c.whitespaceHandling ∧ c.whitespaceHandling ≤ 2) := by
  by_cases h : 0 ≤ c.caseHandling ∧ c.caseHandling ≤ 2
  · obtain ⟨v, hv⟩ := configureCH_step m c h.1 h.2
    rw [hv] at hok
    exact ⟨h, configureTN_cond _ c m2 hok⟩
  · rw [configureCH_out m c (by omega)] at hok
    exact Option.noConfusion hok

theorem configureCS_err (m : Engine) (c : Config)
    (h : c.charset < 0 ∨ 3 < c.charset) :
    configureCS m c = some (Except.error ("Invalid charset")) := by
  simp [configureCS, SetCharset_out _ _ h]

theorem configureCS_step (m : Engine) (c : Config)
    (h0 : 0 ≤ c.charset) (h3 : c.charset ≤ 3) :
    ∃ v, configureCS m c = configureCH { m with charset := v } c := by
  obtain ⟨v, hv⟩ := SetCharset_in m c.charset h0 h3
  exact ⟨v, by simp [configureCS, hv]⟩

theorem configureCS_ok (m : Engine) (c : Config)
    (hs0 : 0 ≤ c.charset) (hs3 : c.charset ≤ 3)
    (hc0 : 0 ≤ c.caseHandling) (hc2 : c.caseHandling ≤ 2)
    (ht0 : 0 ≤ c.tokenNumbering) (ht1 : c.tokenNumbering ≤ 1)
    (hw0 : 0 ≤ c.whitespaceHandling) (hw2 : c.whitespaceHandling ≤ 2) :
    ∃ m2, configureCS m c = some (Except.ok m2) := by
  obtain ⟨v, hv⟩ := configureCS_step m c hs0 hs3
  rw [hv]
  exact configureCH_ok _ c hc0 hc2 ht0 ht1 hw0 hw2

theorem configureCS_cond (m : Engine) (c : Config) (m2 : Engine)
    (hok : configureCS m c = some (Except.ok m2)) :
    (0 ≤ c.charset ∧ c.charset ≤ 3) ∧
      (0 ≤ c.caseHandling ∧ c.caseHandling ≤ 2) ∧
      (0 ≤ c.tokenNumbering ∧ c.tokenNumbering ≤ 1) ∧
      (0 ≤ c.whitespaceHandling ∧ c.whitespaceHandling ≤ 2) := by
  by_cases h : 0 ≤ c.charset ∧ c.charset ≤ 3
  · obtain ⟨v, hv⟩ := configureCS_step m c h.1 h.2
    rw [hv] at hok
    exact ⟨h, configureCH_cond _ c m2 hok⟩
  · rw [configureCS_err m c (by omega)] at hok
    simp at hok

theorem configurePraet_step (m : Engine) (c : Config)
    (h : c.praet = "" ∨ c.praet ∈ m.availablePraet) :
    ∃ p, configurePraet m c = configureCS { m with praet := p } c := by
  by_cases h0 : c.praet = ""
  · exact ⟨m.praet, by simp [configurePraet, h0]⟩
  · rcases h with h | h
    · exact absurd h h0
    · exact ⟨c.praet, by simp [configurePraet, h0, SetPraet_mem _ _ h]⟩

theorem configurePraet_err (m : Engine) (c : Config)
    (h1 : c.praet ≠ "") (h2 : c.praet ∉ m.availablePraet)
    (hmsg : m.praetErrMsg c.praet ≠ "") :
    configurePraet m c = some (Except.error (m.praetErrMsg c.praet)) := by
  simp [configurePraet, h1, SetPraet_not_mem _ _ h2 hmsg]

theorem configurePraet_ok (m : Engine) (c : Config)
    (hp : c.praet = "" ∨ c.praet ∈ m.availablePraet)
    (hs0 : 0 ≤ c.charset) (hs3 : c.charset ≤ 3)
    (hc0 : 0 ≤ c.caseHandling) (hc2 : c.caseHandling ≤ 2)
    (ht0 : 0 ≤ c.tokenNumbering) (ht1 : c.tokenNumbering ≤ 1)
    (hw0 : 0 ≤ c.whitespaceHandling) (hw2 : c.whitespaceHandling ≤ 2) :
    ∃ m2, configurePraet m c = some (Except.ok m2) := by
  obtain ⟨p, hp2⟩ := configurePraet_step m c hp
  rw [hp2]
  exact configureCS_ok _ c hs0 hs3 hc0 hc2 ht0 ht1 hw0 hw2

theorem configurePraet_cond (m : Engine) (c : Config) (m2 : Engine)
    (hmsgP : ∀ v, m.praetErrMsg v ≠ "")
    (hok : configurePraet m c = some (Except.ok m2)) :
    (c.praet = "" ∨ c.praet ∈ m.availablePraet) ∧
      (0 ≤ c.charset ∧ c.charset ≤ 3) ∧
      (0 ≤ c.caseHandling ∧ c.caseHandling ≤ 2) ∧
      (0 ≤ c.tokenNumbering ∧ c.tokenNumbering ≤ 1) ∧
      (0 ≤ c.whitespaceHandling ∧ c.whitespaceHandling ≤ 2) := by
  by_cases h : c.praet = "" ∨ c.praet ∈ m.availablePraet
  · obtain ⟨p, hp2⟩ := configurePraet_step m c h
    rw [hp2] at hok
    exact ⟨h, configureCS_cond _ c m2 hok⟩
  · push_neg at h
    rw [configurePraet_err m c h.1 h.2 (hmsgP c.praet)] at hok
    simp at hok

theorem configureAggl_step (m : Engine) (c : Config)
    (h : c.aggl = "" ∨ c.aggl ∈ m.availableAggl) :
    ∃ a, configureAggl m c = configurePraet { m with aggl := a } c := by
  by_cases h0 : c.aggl = ""
  · exact ⟨m.aggl, by simp [configureAggl, h0]⟩
  · rcases h with h | h
    · exact absurd h h0
    · exact ⟨c.aggl, by simp [configureAggl, h0, SetAggl_mem _ _ h]⟩

theorem configureAggl_err (m : Engine) (c : Config)
    (h1 : c.aggl ≠ "") (h2 : c.aggl ∉ m.availableAggl)
    (hmsg : m.agglErrMsg c.aggl ≠ "") :
    configureAggl m c = some (Except.error (m.agglErrMsg c.aggl)) := by
  simp [configureAggl, h1, SetAggl_not_mem _ _ h2 hmsg]

theorem configureAggl_praet_err (m : Engine) (c : Config)
    (hA : c.aggl = "" ∨ c.aggl ∈ m.availableAggl)
    (h1 : c.praet ≠ "") (h2 : c.praet ∉ m.availablePraet)
    (hmsg : m.praetErrMsg c.praet ≠ "") :
    configureAggl m c = some (Except.error (m.praetErrMsg c.praet)) := by
  obtain ⟨a, ha⟩ := configureAggl_step m c hA
  rw [ha]
  exact configurePraet_err _ c h1 h2 hmsg

theorem configureAggl_charset_err (m : Engine) (c : Config)
    (hA : c.aggl = "" ∨ c.aggl ∈ m.availableAggl)
    (hP : c.praet = "" ∨ c.praet ∈ m.availablePraet)
    (hcs : c.charset < 0 ∨ 3 < c.charset) :
    configureAggl m c = some (Except.error ("Invalid charset")) := by
  obtain ⟨a, ha⟩ := configureAggl_step m c hA
  rw [ha]
  obtain ⟨p, hp⟩ := configurePraet_step { m with aggl := a } c hP
  rw [hp]
  exact configureCS_err _ c hcs

theorem configureAggl_ok (m : Engine) (c : Config)
    (hsteps : StepsOk m c) :
    ∃ m2, configureAggl m c = some (Except.ok m2) := by
  obtain ⟨hA, hP, hcs, hch, htn, hws⟩ := hsteps
  obtain ⟨a, ha⟩ := configureAggl_step m c hA
  rw [ha]
  exact configurePraet_ok _ c hP hcs.1 hcs.2 hch.1 hch.2 htn.1 htn.2
    hws.1 hws.2

theorem configureAggl_cond (m : Engine) (c : Config) (m2 : Engine)
    (hmsgA : ∀ v, m.agglErrMsg v ≠ "")
    (hmsgP : ∀ v, m.praetErrMsg v ≠ "")
    (hok : configureAggl m c = some (Except.ok m2)) :
    StepsOk m c := by
  by_cases h : c.aggl = "" ∨ c.aggl ∈ m.availableAggl
  · obtain ⟨a, ha⟩ := configureAggl_step m c h
    rw [ha] at hok
    have := configurePraet_cond { m with aggl := a } c m2 hmsgP hok
    exact ⟨h, this⟩
  · push_neg at h
    rw [configureAggl_err m c h.1 h.2 (hmsgA c.aggl)] at hok
    simp at hok

theorem New_usage_out (w : World) (c : Config)
    (h : c.usage < 0 ∨ 2 < c.usage) :
    New w (some c) = some (Except.error ("Invalid usage option")) := by
  simp [New, h]

theorem New_load_fail (w : World) (c : Config)
    (h0 : 0 ≤ c.usage) (h2 : c.usage ≤ 2)
    (hl : w.loadDict c.dictName = none) :
    New w (some c) = some (Except.error
      ("Failed to load dictionary \"" ++ c.dictName ++ "\"")) := by
  obtain ⟨u, hu⟩ := tableGet_usage_in c.usage h0 h2
  have hno : ¬(c.usage < 0 ∨ 2 < c.usage) := by omega
  simp [New, hno, createInstance, hu, hl]

theorem New_configure (w : World) (c : Config) (m : Engine) (u : NUsage)
    (h0 : 0 ≤ c.usage) (h2 : c.usage ≤ 2)
    (hl : w.loadDict c.dictName = some m)
    (hu : tableGet translateUsage c.usage = some u) :
    New w (some c) = configureAggl { m with usage := u } c := by
  have hno : ¬(c.usage < 0 ∨ 2 < c.usage) := by omega
  simp [New, hno, createInstance, hu, hl]

theorem New_ok_load (w : World) (c : Config) (m2 : Engine)
    (hok : New w (some c) = some (Except.ok m2)) :
    (0 ≤ c.usage ∧ c.usage ≤ 2) ∧ (w.loadDict c.dictName).isSome := by
  by_cases h : 0 ≤ c.usage ∧ c.usage ≤ 2
  · cases hl : w.loadDict c.dictName with
    | none =>
        rw [New_load_fail w c h.1 h.2 hl] at hok
        simp at hok
    | some m => exact ⟨h, by simp [hl]⟩
  · rw [New_usage_out w c (by omega)] at hok
    simp at hok

theorem findString_get (table : List (Option String)) (s : String)
    (k : Nat) (h : findString table s = some k) :
    table.get? k = some (some s) := by
  induction table generalizing k with
  | nil => exact Option.noConfusion h
  | cons x rest ih =>
      by_cases hx : x = some s
      · rw [findString, if_pos hx] at h
        cases h
        simpa using hx
      · rw [findString, if_neg hx] at h
        cases hr : findString rest s with
        | none => rw [hr] at h; exact Option.noConfusion h
        | some k0 =>
            rw [hr] at h
            simp at h
            subst h
            simpa using ih k0 hr

theorem findString_of_get (table : List (Option String)) (s : String)
    (i : Nat) (h : table.get? i = some (some s)) :
    ∃ k, findString table s = some k := by
  induction table generalizing i with
  | nil => simp at h
  | cons x rest ih =>
      by_cases hx : x = some s
      · exact ⟨0, by rw [findString, if_pos hx]⟩
      · cases i with
        | zero =>
            simp at h
            exact absurd h hx
        | succ j =>
            simp at h
            obtain ⟨k, hk⟩ := ih j (by rw [List.get?_eq_getElem?]; exact h)
            exact ⟨k + 1, by rw [findString, if_neg hx, hk]; rfl⟩

theorem findString_none (table : List (Option String)) (s : String)
    (h : ∀ j, table.get? j ≠ some (some s)) :
    findString table s = none := by
  cases hf : findString table s with
  | none => rfl
  | some k => exact absurd (findString_get table s k hf) (h k)

theorem tableInjective_eq (table : List (Option String))
    (h : TableInjective table) (i j : Nat) (s : String)
    (hi : table.get? i = some (some s)) (hj : table.get? j = some (some s)) :
    i = j := by
  rcases Nat.lt_trichotomy i j with hlt | heq | hgt
  · have hjl : j < table.length := by
      by_contra hc
      rw [List.get?_eq_none.mpr (by omega)] at hj
      exact Option.noConfusion hj
    have hil : i < table.length := by omega
    have hp := (List.pairwise_iff_getElem.mp h) i j hil hjl hlt
    rw [List.get?_eq_getElem?, List.getElem?_eq_getElem hil] at hi
    rw [List.get?_eq_getElem?, List.getElem?_eq_getElem hjl] at hj
    rcases hp with hne | hnone
    · exact absurd (by rw [Option.some_inj.mp hi, Option.some_inj.mp hj]) hne
    · rw [Option.some_inj.mp hi] at hnone
      exact Option.noConfusion hnone
  · exact heq
  · have hil : i < table.length := by
      by_contra hc
      rw [List.get?_eq_none.mpr (by omega)] at hi
      exact Option.noConfusion hi
    have hjl : j < table.length := by omega
    have hp := (List.pairwise_iff_getElem.mp h) j i hjl hil hgt
    rw [List.get?_eq_getElem?, List.getElem?_eq_getElem hil] at hi
    rw [List.get?_eq_getElem?, List.getElem?_eq_getElem hjl] at hj
    rcases hp with hne | hnone
    · exact absurd (by rw [Option.some_inj.mp hi, Option.some_inj.mp hj]) hne
    · rw [Option.some_inj.mp hj] at hnone
      exact Option.noConfusion hnone

theorem resolveById_nat (table : List (Option String)) (i : Nat) :
    resolveById table (i : Int) =
      (match table.get? i with
       | some (some s) => Except.ok s
       | some none => Except.error ()
       | none => Except.error ()) := by
  unfold resolveById
  rw [if_neg (by omega)]
  simp

theorem filter_length_count (l : List String) (p : String) :
    (l.filter (fun x => decide (x ≠ p))).length + l.count p = l.length := by
  induction l with
  | nil => simp
  | cons x rest ih =>
      by_cases hx : x = p
      · simp [List.filter_cons, List.count_cons, hx] at ih ⊢
        omega
      · simp [List.filter_cons, List.count_cons, hx] at ih ⊢
        omega

theorem string_eq_empty_of_length (s : String) (h : s.length = 0) :
    s = "" := by
  cases s with
  | mk data =>
    simp [String.length] at h
    simp [h]

theorem resolveById_out (table : List (Option String)) (i : Int)
    (h : i < 0 ∨ (table.length : Int) ≤ i) :
    resolveById table i = Except.error () := by
  rcases h with h | h
  · simp [resolveById, h]
  · unfold resolveById
    rw [if_neg (by omega), List.get?_eq_none.mpr (by omega)]

/-- Claim C1: the claim says every out-of-range enum ordinal is rejected
by the facade before crossing the native boundary, so that it never
indexes the fixed-size native translation table.  The code violates it:
only SetCharset and New's usage value are range-checked; SetCaseHandling,
SetTokenNumbering and SetWhitespaceHandling pass the raw ordinal to the
shim, where it indexes the three- (resp. two-) element translation table
out of bounds — undefined behaviour, modelled as none — and New with an
out-of-range CaseHandling ordinal reaches the same read, although the
repository's own tests expect an error with unchanged state. -/
theorem claimC1_invalid_ordinal_reaches_table :
    SetCaseHandling baseEngine 3 = none ∧
    SetTokenNumbering baseEngine 2 = none ∧
    SetWhitespaceHandling baseEngine 3 = none ∧
    tableGet translateCaseHandling 3 = none ∧
    translateCaseHandling.length = 3 ∧
    SetCharset baseEngine 4 = some (some ("Invalid charset"), baseEngine) ∧
    New allLoadWorld (some caseOutConfig) = none :=
  ⟨rfl, rfl, rfl, rfl, rfl, rfl, rfl⟩

/-- Claim C2: Generate and GenerateWithTagID on a generation-disabled
engine fail through the returned array's error channel with a non-nil Go
error (given the native message is non-empty); an array never carries
both an error and items; a nil item slice arises only from the disabled
error path; and an empty item list with no error is the legitimate
result of a tag restriction matching nothing. -/
theorem claimC2_generate_error_channel (e : Engine) (lemma_ : String)
    (tid : Int) :
    (e.usage = NUsage.analyseOnly → e.genDisabledMsg ≠ "" →
      Generate e lemma_ = (none, some e.genDisabledMsg) ∧
      GenerateWithTagID e tid lemma_ = (none, some e.genDisabledMsg)) ∧
    ¬((generate e lemma_).error.null = false ∧
      (generate e lemma_).tokens ≠ []) ∧
    ((Generate e lemma_).2.isSome → (Generate e lemma_).1 = none) ∧
    ((Generate e lemma_).1 = none → e.usage = NUsage.analyseOnly) ∧
    (e.usage ≠ NUsage.analyseOnly → e.genFormsWithTag tid lemma_ = [] →
      GenerateWithTagID e tid lemma_ = (some [], none)) := by
  refine ⟨?_, ?_, ?_, ?_, ?_⟩
  · intro h hmsg
    constructor
    · simp [Generate, generate, nativeGenerate, h, fromTokenInfoArray,
        makeError, makeString]
      exact newError_makeError _ hmsg
    · simp [GenerateWithTagID, generateWithTagID, nativeGenerateWithTag, h,
        fromTokenInfoArray, makeError, makeString]
      exact newError_makeError _ hmsg
  · cases husage : e.usage with
    | analyseOnly =>
        simp [generate, nativeGenerate, husage, makeError, makeString]
    | bothAnalyseAndGenerate =>
        simp [generate, nativeGenerate, husage, noError, emptyString]
    | generateOnly =>
        simp [generate, nativeGenerate, husage, noError, emptyString]
  · by_cases hb : (generate e lemma_).error.null = false
    · simp [Generate, fromTokenInfoArray, hb]
    · simp [Generate, fromTokenInfoArray, hb]
  · intro h1
    cases husage : e.usage with
    | analyseOnly => rfl
    | bothAnalyseAndGenerate =>
        simp [Generate, generate, nativeGenerate, husage,
          fromTokenInfoArray, noError, emptyString] at h1
    | generateOnly =>
        simp [Generate, generate, nativeGenerate, husage,
          fromTokenInfoArray, noError, emptyString] at h1
  · intro h hforms
    cases husage : e.usage with
    | analyseOnly => exact absurd husage h
    | bothAnalyseAndGenerate =>
        simp [GenerateWithTagID, generateWithTagID, nativeGenerateWithTag,
          husage, hforms, fromTokenInfoArray, noError, emptyString]
    | generateOnly =>
        simp [GenerateWithTagID, generateWithTagID, nativeGenerateWithTag,
          husage, hforms, fromTokenInfoArray, noError, emptyString]

/-- Witness for claim C2: evaluating the generation operations on a
concrete disabled engine and a concrete enabled engine. -/
theorem claimC2_witness :
    Generate analyseOnlyEngine ("dom") =
      (none, some ("Generation disabled")) ∧
    GenerateWithTagID baseEngine 7 ("dom") = (some [], none) := by
  constructor
  · exact ((claimC2_generate_error_channel analyseOnlyEngine ("dom") 7).1
      rfl (by decide)).1
  · exact (claimC2_generate_error_channel baseEngine ("dom") 7).2.2.2.2
      (by decide) rfl

/-- Claim C3: when Next (HasMore) is false, TokenInfo (Pull) returns the
zero-length-orth sentinel, surfaced as nil, leaving the cursor where it
is; and, since real analysis output never produces an empty orth,
exhaustion is the only way TokenInfo returns nil — mid-stream pulls
always succeed with a token, never an error. -/
theorem claimC3_pull_exhaustion (r : Result) :
    ((Result.Next r).1 = false → Result.TokenInfo r = (none, r)) ∧
    ((∀ t ∈ r.tokens, t.orth.s ≠ "") →
      ((Result.TokenInfo r).1 = none → (Result.Next r).1 = false) ∧
      ((Result.Next r).1 = true →
        ∃ t, Result.TokenInfo r = (some t, ⟨r.tokens, r.pos + 1⟩))) := by
  constructor
  · intro h
    have hlen : ¬(r.pos < r.tokens.length) := by
      simpa [Result.Next, hasNext, nativeHasNext] using h
    unfold Result.TokenInfo next nativeNext
    rw [List.get?_eq_none.mpr (by omega)]
    simp [emptyTokenInfo, emptyString]
  · intro hne
    constructor
    · intro h1
      by_contra hc
      have hlt : r.pos < r.tokens.length := by
        simpa [Result.Next, hasNext, nativeHasNext] using hc
      obtain ⟨t, ht⟩ : ∃ t, r.tokens.get? r.pos = some t :=
        ⟨_, List.get?_eq_get hlt⟩
      have hmem : t ∈ r.tokens := List.get?_mem ht
      have horth : t.orth.s.length ≠ 0 := by
        intro hz
        exact hne t hmem (string_eq_empty_of_length _ hz)
      rw [Result.TokenInfo, next, nativeNext, ht] at h1
      simp [horth] at h1
    · intro h
      have hlt : r.pos < r.tokens.length := by
        simpa [Result.Next, hasNext, nativeHasNext] using h
      obtain ⟨t, ht⟩ : ∃ t, r.tokens.get? r.pos = some t :=
        ⟨_, List.get?_eq_get hlt⟩
      have hmem : t ∈ r.tokens := List.get?_mem ht
      have horth : t.orth.s.length ≠ 0 := by
        intro hz
        exact hne t hmem (string_eq_empty_of_length _ hz)
      refine ⟨t, ?_⟩
      rw [Result.TokenInfo, next, nativeNext, ht]
      simp [horth]

/-- Witness for claim C3: the exhausted concrete cursor pulls the nil
sentinel and stays put. -/
theorem claimC3_witness :
    Result.TokenInfo emptyResult = (none, emptyResult) ∧
    (Result.Next emptyResult).1 = false :=
  ⟨(claimC3_pull_exhaustion emptyResult).1 rfl, rfl⟩

/-- Claim C8: Next (HasMore) is side-effect-free and repeatable: any
number of calls leaves the cursor state unchanged, consecutive calls
return the same boolean, and a following TokenInfo call behaves as if
Next had been called once or not at all. -/
theorem claimC8_next_side_effect_free (r : Result) (n : Nat) :
    (Result.Next r).2 = r ∧
    (fun s => (Result.Next s).2)^[n] r = r ∧
    (Result.Next ((Result.Next r).2)).1 = (Result.Next r).1 ∧
    Result.TokenInfo ((Result.Next r).2) = Result.TokenInfo r :=
  ⟨rfl, Function.iterate_fixed rfl n, rfl, rfl⟩

/-- Claim C4: SetAggl, SetPraet and SetDictionary reject an invalid value
with a non-nil native-formatted error (given the native message is
non-empty) leaving the prior setting unchanged, as Aggl and Praet still
report; a valid value is accepted with a nil error and becomes the new
setting. -/
theorem claimC4_string_setters (e : Engine) (v : String) :
    (v ∉ e.availableAggl → e.agglErrMsg v ≠ "" →
      SetAggl e v = (some (e.agglErrMsg v), e) ∧
      Aggl (SetAggl e v).2 = Aggl e) ∧
    (v ∈ e.availableAggl →
      SetAggl e v = (none, { e with aggl := v }) ∧
      Aggl (SetAggl e v).2 = v) ∧
    (v ∉ e.availablePraet → e.praetErrMsg v ≠ "" →
      SetPraet e v = (some (e.praetErrMsg v), e) ∧
      Praet (SetPraet e v).2 = Praet e) ∧
    (v ∈ e.availablePraet →
      SetPraet e v = (none, { e with praet := v }) ∧
      Praet (SetPraet e v).2 = v) ∧
    (v ∉ e.availableDicts → e.dictErrMsg v ≠ "" →
      SetDictionary e v = (some (e.dictErrMsg v), e)) ∧
    (v ∈ e.availableDicts →
      SetDictionary e v = (none, { e with dictName := v })) := by
  refine ⟨?_, ?_, ?_, ?_, ?_, ?_⟩
  · intro h hmsg
    rw [SetAggl_not_mem e v h hmsg]
    exact ⟨rfl, rfl⟩
  · intro h
    rw [SetAggl_mem e v h]
    exact ⟨rfl, rfl⟩
  · intro h hmsg
    rw [SetPraet_not_mem e v h hmsg]
    exact ⟨rfl, rfl⟩
  · intro h
    rw [SetPraet_mem e v h]
    exact ⟨rfl, rfl⟩
  · intro h hmsg
    rw [SetDictionary_not_mem e v h hmsg]
  · intro h
    rw [SetDictionary_mem e v h]

/-- Witness for claim C4: the concrete engine rejects an unknown
agglutination value keeping the prior one, and accepts an available
one. -/
theorem claimC4_witness :
    SetAggl baseEngine ("xyz") =
      (some ("Invalid aggl option"), baseEngine) ∧
    Aggl (SetAggl baseEngine ("xyz")).2 = "strict" ∧
    SetAggl baseEngine ("permissive") =
      (none, { baseEngine with aggl := "permissive" }) := by
  have h1 := (claimC4_string_setters baseEngine ("xyz")).1
    (by decide) (by decide)
  have h2 := ((claimC4_string_setters baseEngine ("permissive")).2.1
    (by decide)).1
  exact ⟨h1.1, h1.2.trans rfl, h2⟩

/-- Claim C6: tag-table round trip on an engine whose interning table is
injective on canonical strings: for every tag string valid in the loaded
dictionary, Tag of TagID returns the string back; and for every id below
TagsCount carrying a canonical string (i.e. not a reserved sentinel
lacking one), TagID of Tag returns the id back. -/
theorem claimC6_tag_round_trip (e : Engine)
    (hinj : TableInjective e.tags) :
    (∀ t, some t ∈ e.tags → Tag e (TagID e t) = t) ∧
    (∀ i : Nat, (i : Int) < TagsCount e → ∀ s,
      e.tags.get? i = some (some s) →
      TagID e (Tag e (i : Int)) = (i : Int)) := by
  constructor
  · intro t ht
    obtain ⟨i, hi⟩ := List.get?_of_mem ht
    obtain ⟨k, hk⟩ := findString_of_get e.tags t i hi
    have hgk := findString_get e.tags t k hk
    unfold Tag tag TagID tagId resolveByString
    rw [hk]
    rw [resolveById_nat, hgk]
    rfl
  · intro i hi s hs
    have htag : Tag e (i : Int) = s := by
      unfold Tag tag
      rw [resolveById_nat, hs]
      rfl
    rw [htag]
    obtain ⟨k, hk⟩ := findString_of_get e.tags s i hs
    have hgk := findString_get e.tags s k hk
    have hki : k = i := tableInjective_eq e.tags hinj k i s hgk hs
    unfold TagID tagId resolveByString
    rw [hk, hki]

/-- Witness for claim C6: the round trip on the concrete engine's
table. -/
theorem claimC6_witness :
    Tag baseEngine (TagID baseEngine ("adj")) = "adj" ∧
    TagID baseEngine (Tag baseEngine 1) = 1 := by
  have hinj : TableInjective baseEngine.tags := by
    unfold TableInjective
    decide
  have h := claimC6_tag_round_trip baseEngine hinj
  exact ⟨h.1 ("adj") (by decide), h.2 1 (by decide) ("sp") rfl⟩

/-- Claim C7: resolving an out-of-range id through Tag, Name or
LabelsAsString returns the empty string rather than an error, and
resolving a string absent from the table through TagID, NameID or
LabelsID returns the invalid-id sentinel -1 rather than an error. -/
theorem claimC7_resolver_sentinels (e : Engine) (i : Int) (s : String) :
    (i < 0 ∨ (e.tags.length : Int) ≤ i → Tag e i = "") ∧
    (i < 0 ∨ (e.names.length : Int) ≤ i → Name e i = "") ∧
    (i < 0 ∨ (e.labels.length : Int) ≤ i → LabelsAsString e i = "") ∧
    (some s ∉ e.tags → TagID e s = -1) ∧
    (some s ∉ e.names → NameID e s = -1) ∧
    (some s ∉ e.labels → LabelsID e s = -1) := by
  refine ⟨?_, ?_, ?_, ?_, ?_, ?_⟩
  · intro h
    unfold Tag tag
    rw [resolveById_out e.tags i h]
    rfl
  · intro h
    unfold Name name
    rw [resolveById_out e.names i h]
    rfl
  · intro h
    unfold LabelsAsString labelsAsString
    rw [resolveById_out e.labels i h]
    rfl
  · intro h
    unfold TagID tagId resolveByString
    rw [findString_none e.tags s
      (fun j hj => h (List.get?_mem hj))]
  · intro h
    unfold NameID nameId resolveByString
    rw [findString_none e.names s
      (fun j hj => h (List.get?_mem hj))]
  · intro h
    unfold LabelsID labelsId resolveByString
    rw [findString_none e.labels s
      (fun j hj => h (List.get?_mem hj))]

/-- Witness for claim C7: concrete out-of-range ids resolve to the empty
string and an unknown string resolves to -1 in all three tables. -/
theorem claimC7_witness :
    Tag baseEngine 611 = "" ∧
    Name baseEngine (-1) = "" ∧
    LabelsAsString baseEngine 5 = "" ∧
    TagID baseEngine ("xyz") = -1 ∧
    NameID baseEngine ("xyz") = -1 ∧
    LabelsID baseEngine ("xyz") = -1 := by
  have h1 := claimC7_resolver_sentinels baseEngine 611 ("xyz")
  have h2 := claimC7_resolver_sentinels baseEngine (-1) ("xyz")
  have h3 := claimC7_resolver_sentinels baseEngine 5 ("xyz")
  exact ⟨h1.1 (by decide), h2.2.1 (by decide), h3.2.2.1 (by decide),
    h1.2.2.2.1 (by decide), h1.2.2.2.2.1 (by decide),
    h1.2.2.2.2.2 (by decide)⟩

theorem count_filter_ne (l : List String) (p q : String) (hq : q ≠ p) :
    (l.filter (fun x => decide (x ≠ p))).count q = l.count q := by
  have hpq : ¬(p = q) := fun hc => hq hc.symm
  induction l with
  | nil => rfl
  | cons x rest ih =>
      by_cases hx : x = p
      · simp [List.filter_cons, List.count_cons, hx, hpq] at ih ⊢
        exact ih
      · simp [List.filter_cons, List.count_cons, hx] at ih ⊢
        rw [ih]

/-- Claim C9: the dictionary search-path list is an ordered sequence with
duplicates permitted: prepend inserts at the front, append at the back,
remove drops every element equal to the value and returns how many (0
when absent, with the engine unchanged), and clear empties the list. -/
theorem claimC9_search_paths (e : Engine) (p : String) :
    (prependToDictionarySearchPaths e p).searchPaths =
      p :: e.searchPaths ∧
    (appendToDictionarySearchPaths e p).searchPaths =
      e.searchPaths ++ [p] ∧
    (removeFromDictionarySearchPaths e p).2 = e.searchPaths.count p ∧
    p ∉ ((removeFromDictionarySearchPaths e p).1).searchPaths ∧
    (∀ q, q ≠ p →
      ((removeFromDictionarySearchPaths e p).1).searchPaths.count q =
        e.searchPaths.count q) ∧
    (p ∉ e.searchPaths → removeFromDictionarySearchPaths e p = (e, 0)) ∧
    (clearDictionarySearchPaths e).searchPaths = [] := by
  refine ⟨rfl, rfl, ?_, ?_, ?_, ?_, rfl⟩
  · have h := filter_length_count e.searchPaths p
    show e.searchPaths.length -
        (e.searchPaths.filter (fun x => decide (x ≠ p))).length =
      e.searchPaths.count p
    omega
  · show p ∉ e.searchPaths.filter (fun x => decide (x ≠ p))
    simp [List.mem_filter]
  · intro q hq
    exact count_filter_ne e.searchPaths p q hq
  · intro h
    have hf : e.searchPaths.filter (fun x => decide (x ≠ p)) =
        e.searchPaths := by
      rw [List.filter_eq_self]
      intro a ha
      simp
      intro heq
      exact h (heq ▸ ha)
    show ({ e with searchPaths :=
        e.searchPaths.filter (fun x => decide (x ≠ p)) },
      e.searchPaths.length -
        (e.searchPaths.filter (fun x => decide (x ≠ p))).length) =
      (e, 0)
    rw [hf]
    simp

/-- Witness for claim C9: the concrete search-path scenario of the spec:
removing the twice-present first path returns 2, removing an absent path
returns 0 leaving the engine untouched, and clear empties the list. -/
theorem claimC9_witness :
    (removeFromDictionarySearchPaths baseEngine ("first_path")).2 = 2 ∧
    removeFromDictionarySearchPaths baseEngine ("xyz") =
      (baseEngine, 0) ∧
    (clearDictionarySearchPaths baseEngine).searchPaths = [] := by
  refine ⟨?_, ?_, ?_⟩
  · exact ((claimC9_search_paths baseEngine ("first_path")).2.2.1).trans
      (by decide)
  · exact (claimC9_search_paths baseEngine ("xyz")).2.2.2.2.2.1
      (by decide)
  · exact (claimC9_search_paths baseEngine ("xyz")).2.2.2.2.2.2

/-- Counterexample to claim C5: in a world where every dictionary name
loads and with the in-range usage 0, New still fails — the out-of-range
charset in the config makes the SetCharset step abort New — so New does
not return a handle exactly when the dictionary loads and usage is in
range. -/
theorem claimC5_counterexample :
    charsetOutConfig.usage = 0 ∧
    allLoadWorld.loadDict charsetOutConfig.dictName = some baseEngine ∧
    New allLoadWorld (some charsetOutConfig) =
      some (Except.error ("Invalid charset")) :=
  ⟨rfl, rfl, rfl⟩

/-- Claim C5 as amended: New fails with the plain invalid-usage error
when usage is out of range, with the plain load error when the
dictionary cannot be loaded, and a handle is returned only when the
dictionary loaded and usage was in range; for a loadable dictionary, an
in-range usage and configuration values every configuration step
accepts, New returns a (non-nil) handle. -/
theorem claimC5_create_failure (w : World) (c : Config) (m m2 : Engine) :
    (c.usage < 0 ∨ 2 < c.usage →
      New w (some c) = some (Except.error ("Invalid usage option"))) ∧
    (0 ≤ c.usage → c.usage ≤ 2 → w.loadDict c.dictName = none →
      New w (some c) = some (Except.error
        ("Failed to load dictionary \"" ++ c.dictName ++ "\""))) ∧
    (New w (some c) = some (Except.ok m2) →
      (0 ≤ c.usage ∧ c.usage ≤ 2) ∧ (w.loadDict c.dictName).isSome) ∧
    (0 ≤ c.usage → c.usage ≤ 2 → w.loadDict c.dictName = some m →
      StepsOk m c → ∃ m3, New w (some c) = some (Except.ok m3)) := by
  refine ⟨?_, ?_, ?_, ?_⟩
  · exact New_usage_out w c
  · exact New_load_fail w c
  · exact New_ok_load w c m2
  · intro h0 h2 hl hsteps
    obtain ⟨u, hu⟩ := tableGet_usage_in c.usage h0 h2
    rw [New_configure w c m u h0 h2 hl hu]
    exact configureAggl_ok { m with usage := u } c hsteps

/-- Witness for the amended claim C5: with the loadable dictionary, the
in-range default usage and fully valid configuration values, New
returns a handle. -/
theorem claimC5_witness :
    ∃ m3, New allLoadWorld (some defaultConfig) =
      some (Except.ok m3) := by
  refine (claimC5_create_failure allLoadWorld defaultConfig baseEngine
    baseEngine).2.2.2 (by decide) (by decide) rfl ?_
  exact ⟨Or.inl rfl, Or.inl rfl, by decide, by decide, by decide, by decide⟩

/-- Claim C10: New is all-or-nothing: once native creation succeeds, New
reduces to the configuration pipeline; it returns a handle only when
every configuration step succeeded, a handle exists whenever every step
accepts its value, and a step error (invalid Aggl, invalid Praet after a
good Aggl, out-of-range charset after both) becomes exactly the error
New returns with no handle.  The native error messages are assumed
non-empty, as a nil-error message would make the Go facade treat a
failed native call as success. -/
theorem claimC10_new_all_or_nothing (w : World) (c : Config) (m : Engine)
    (hmsgA : ∀ v, m.agglErrMsg v ≠ "")
    (hmsgP : ∀ v, m.praetErrMsg v ≠ "")
    (h0 : 0 ≤ c.usage) (h2 : c.usage ≤ 2)
    (hl : w.loadDict c.dictName = some m) :
    (∀ u, tableGet translateUsage c.usage = some u →
      New w (some c) = configureAggl { m with usage := u } c) ∧
    (∀ m2, New w (some c) = some (Except.ok m2) → StepsOk m c) ∧
    (StepsOk m c → ∃ m2, New w (some c) = some (Except.ok m2)) ∧
    (c.aggl ≠ "" → c.aggl ∉ m.availableAggl →
      New w (some c) = some (Except.error (m.agglErrMsg c.aggl))) ∧
    ((c.aggl = "" ∨ c.aggl ∈ m.availableAggl) → c.praet ≠ "" →
      c.praet ∉ m.availablePraet →
      New w (some c) = some (Except.error (m.praetErrMsg c.praet))) ∧
    ((c.aggl = "" ∨ c.aggl ∈ m.availableAggl) →
      (c.praet = "" ∨ c.praet ∈ m.availablePraet) →
      (c.charset < 0 ∨ 3 < c.charset) →
      New w (some c) = some (Except.error ("Invalid charset"))) := by
  obtain ⟨u, hu⟩ := tableGet_usage_in c.usage h0 h2
  have hnew := New_configure w c m u h0 h2 hl hu
  refine ⟨?_, ?_, ?_, ?_, ?_, ?_⟩
  · intro u2 hu2
    rw [hu] at hu2
    cases hu2
    exact hnew
  · intro m2 hok
    rw [hnew] at hok
    exact configureAggl_cond { m with usage := u } c m2 hmsgA hmsgP hok
  · intro hsteps
    rw [hnew]
    exact configureAggl_ok { m with usage := u } c hsteps
  · intro h1 h2a
    rw [hnew]
    exact configureAggl_err { m with usage := u } c h1 h2a (hmsgA c.aggl)
  · intro hA h1 h2a
    rw [hnew]
    exact configureAggl_praet_err { m with usage := u } c hA h1 h2a
      (hmsgP c.praet)
  · intro hA hP hcs
    rw [hnew]
    exact configureAggl_charset_err { m with usage := u } c hA hP hcs

/-- Witness for claim C10: in the all-loading world, a config whose Aggl
value the dictionary rejects makes New return exactly the native
agglutination error and no handle. -/
theorem claimC10_witness :
    New allLoadWorld (some badAgglConfig) =
      some (Except.error ("Invalid aggl option")) := by
  exact (claimC10_new_all_or_nothing allLoadWorld badAgglConfig baseEngine
    (fun _ => (by decide : ("Invalid aggl option" : String) ≠ ""))
    (fun _ => (by decide : ("Invalid praet option" : String) ≠ ""))
    (by decide) (by decide) rfl).2.2.2.1 (by decide) (by decide)

end Morfeusz
